import Mathlib

/-!
Shallow embedding of `src/cowrie/ssh/factory.py` (class `CowrieSSHFactory`).

External collaborators (Twisted, dynamically imported plugin modules, key
files, the filesystem) are modelled as oracles passed to each operation:
a sink's `logDispatch`/`stop` method either returns normally or raises;
`twisted.conch.openssh_compat.primes.parseModuliFile` either raises an
`IOError` (the file cannot be opened/read), raises some other exception
(e.g. a `ValueError` from `int()`/tuple unpacking on a malformed line), or
returns a parsed primes table; a plugin import/instantiation either yields
a sink object or raises.  Machine-level details (key objects, session
handles) that the factory only stores and never inspects are opaque `Nat`s.
-/

set_option autoImplicit false

namespace Cowrie

/-- A registered sink (a dblogger or an output plugin).  Its behaviour when
called is part of the model: `dispatchRaises` (resp. `stopRaises`) records
whether its `logDispatch` (resp. `stop`) method raises when invoked; `sid`
identifies the sink. -/
structure Sink where
  sid : Nat
  dispatchRaises : Bool
  stopRaises : Bool
deriving DecidableEq

/-- One Python `for` loop calling a method on each sink in order, with no
`try`/`except` around the call (as in `logDispatch` and `stopFactory` of
`CowrieSSHFactory`): the first sink whose call raises aborts the loop and
the exception propagates.  Returns the ids of the sinks whose method was
invoked (the raising sink's call did happen) and whether an exception
escaped the loop. -/
def callLoop (raises : Sink → Bool) : List Sink → List Nat × Bool
  | [] => ([], false)
  | s :: rest =>
    if raises s then ([s.sid], true)
    else
      let r := callLoop raises rest
      (s.sid :: r.fst, r.snd)

/-- `CowrieSSHFactory.logDispatch`:
`for dblog in self.dbloggers: dblog.logDispatch(*msg, **args)` then
`for output in self.output_plugins: output.logDispatch(*msg, **args)`.
There is no exception handling, so an exception in the first loop skips the
second loop entirely and propagates to the caller. -/
def logDispatch (dbloggers output_plugins : List Sink) : List Nat × Bool :=
  let r1 := callLoop (fun s => s.dispatchRaises) dbloggers
  if r1.snd then r1
  else
    let r2 := callLoop (fun s => s.dispatchRaises) output_plugins
    (r1.fst ++ r2.fst, r2.snd)

/-- `CowrieSSHFactory.stopFactory`: after `factory.SSHFactory.stopFactory`,
`for output in self.output_plugins: output.stop()` — again with no
exception handling around the calls. -/
def stopFactory (output_plugins : List Sink) : List Nat × Bool :=
  callLoop (fun s => s.stopRaises) output_plugins

/-- Result of one call to `parseModuliFile(path)` at a probe location, as
the probe loop in `buildProtocol` distinguishes the outcomes: `ioError` is
an `IOError` raised opening/reading the file (the only exception caught by
the loop's `except IOError` clause); `otherError` is any other exception
raised while parsing (`parseModuliFile` raises e.g. `ValueError` from
`int()`/tuple unpacking on a malformed line, which the loop does not
catch); `ok` is a normal return carrying the parsed primes table, a mapping
from bit size to (generator, modulus) pairs. -/
inductive ModuliOutcome where
  | ioError : ModuliOutcome
  | otherError : ModuliOutcome
  | ok : List (Nat × List (Nat × Nat)) → ModuliOutcome
deriving DecidableEq

/-- The primes table held in `self.primes`.  The code only stores it and
tests its truthiness (`if not self.primes`), so `None` (the class-level
initial value) and the empty dict are both modelled by `[]`. -/
abbrev PrimesTable := List (Nat × List (Nat × Nat))

/-- The fields of `CowrieSSHFactory` that its shown methods read or write.
`cfgVersionString` models `self.cfg.get('honeypot', 'ssh_version_string')`:
`none` means the lookup raises (no such option), `some v` means it returns
`v`.  `sections` models `self.cfg.sections()`.  Key objects and session
handles are opaque `Nat`s; `started` records that
`factory.SSHFactory.startFactory` ran. -/
structure FactoryState where
  cfgVersionString : Option String
  sections : List String
  sessions : List (Nat × Nat)
  starttime : Option Nat
  publicKeys : List (String × Nat)
  privateKeys : List (String × Nat)
  dbloggers : List Sink
  output_plugins : List Sink
  primes : PrimesTable
  started : Bool
deriving DecidableEq

/-- The fields of the `HoneyPotSSHTransport` instance that `buildProtocol`
assigns (plus `supportedKeyExchanges`, which it reads and may rewrite).
A freshly constructed transport carries the library defaults for all of
these fields; `factoryAttached` stands for the `t.factory = self`
back-reference. -/
structure Transport where
  ourVersionString : String
  supportedPublicKeys : List String
  supportedKeyExchanges : List String
  supportedCiphers : List String
  supportedMACs : List String
  supportedCompressions : List String
  factoryAttached : Bool
deriving DecidableEq

/-- Outcome of a whole `buildProtocol` call: the factory state after the
call, the returned transport (`none` when an uncaught exception propagated
and no handler was returned), and the `log.msg` lines it emitted. -/
structure BuildResult where
  state : FactoryState
  result : Option Transport
  logs : List String
deriving DecidableEq

/-- The fixed probe locations `_modulis` in `buildProtocol`, in order. -/
def modulis : List String := ["/etc/ssh/moduli", "/private/etc/moduli"]

/-- The fallback banner assigned when the configuration lookup raises. -/
def fallbackBanner : String := "SSH-2.0-OpenSSH_6.0p1 Debian-4+deb7u2"

/-- The literal cipher list assigned unconditionally by `buildProtocol`. -/
def fixedCiphers : List String :=
  ["aes128-ctr", "aes192-ctr", "aes256-ctr", "aes128-cbc", "3des-cbc",
   "blowfish-cbc", "cast128-cbc", "aes192-cbc", "aes256-cbc"]

/-- The literal MAC list assigned unconditionally by `buildProtocol`. -/
def fixedMACs : List String := ["hmac-md5", "hmac-sha1"]

/-- The literal compression list assigned unconditionally. -/
def fixedCompressions : List String := ["zlib@openssh.com", "zlib", "none"]

def gexSha1 : String := "diffie-hellman-group-exchange-sha1"

def gexSha256 : String := "diffie-hellman-group-exchange-sha256"

/-- The probe loop of `buildProtocol` over the outcomes at the successive
locations, starting from the current `self.primes`:
`for _moduli in _modulis: try: self.primes = parseModuliFile(_moduli);
break; except IOError: pass`.  An `IOError` advances to the next location;
a successful parse assigns `self.primes` and breaks; any other exception
propagates (`none`), in which case `self.primes` keeps its previous value
because the assignment never executed. -/
def probeLoop : List ModuliOutcome → PrimesTable → Option PrimesTable
  | [], p => some p
  | ModuliOutcome.ioError :: rest, p => probeLoop rest p
  | ModuliOutcome.otherError :: _, _ => none
  | ModuliOutcome.ok q :: _, _ => some q

/-- The `if not self.primes:` block of `buildProtocol` on a copy `ske` of
the transport's key-exchange list: each of the two group-exchange names is
removed (Python `list.remove`: first occurrence) when present, with a
`log.msg` per removal; an absent name is skipped.  Returns the rewritten
list and the emitted log lines. -/
def pruneKex (ske0 : List String) : List String × List String :=
  let step1 :=
    if gexSha1 ∈ ske0 then
      (ske0.erase gexSha1, ["No moduli, no diffie-hellman-group-exchange-sha1"])
    else (ske0, [])
  let step2 :=
    if gexSha256 ∈ step1.fst then
      (step1.fst.erase gexSha256,
       step1.snd ++ ["No moduli, no diffie-hellman-group-exchange-sha256"])
    else step1
  step2

/-- `CowrieSSHFactory.buildProtocol(addr)`.  `fs` gives the outcome of
`parseModuliFile` at each path; `st` is the factory's state; `t0` is the
freshly constructed `HoneyPotSSHTransport` carrying the library-default
field values; `addr` is the peer address, which the body never uses. -/
def buildProtocol (fs : String → ModuliOutcome) (st : FactoryState)
    (t0 : Transport) (addr : String) : BuildResult :=
  let _ := addr
  let t1 : Transport :=
    { t0 with ourVersionString := st.cfgVersionString.getD fallbackBanner }
  let t2 : Transport :=
    { t1 with supportedPublicKeys := st.privateKeys.map Prod.fst }
  match probeLoop (modulis.map fs) st.primes with
  | none => { state := st, result := none, logs := [] }
  | some p =>
    let pruned :=
      if p.isEmpty then pruneKex t2.supportedKeyExchanges
      else (t2.supportedKeyExchanges, [])
    let t3 : Transport := { t2 with supportedKeyExchanges := pruned.fst }
    let t4 : Transport :=
      { t3 with
        supportedCiphers := fixedCiphers,
        supportedPublicKeys := ["ssh-rsa", "ssh-dss"],
        supportedMACs := fixedMACs,
        supportedCompressions := fixedCompressions,
        factoryAttached := true }
    { state := { st with primes := p }, result := some t4, logs := pruned.snd }

/-- The key-exchange list the spec describes for the no-moduli case,
modelled from the spec's words: the default list with exactly the two
group-exchange entries removed and every other entry kept unchanged in
order, i.e. a filter dropping all occurrences of the two names.  Compared
against the list the code actually produces. -/
def specResolvedKex (l : List String) : List String :=
  l.filter (fun e => !(e == gexSha1 || e == gexSha256))

/-- Python `s.split('_')` on the character list of `s`. -/
def splitOnChar (c : Char) : List Char → List (List Char)
  | [] => [[]]
  | d :: rest =>
    let r := splitOnChar c rest
    if d = c then [] :: r
    else
      match r with
      | [] => [[d]]
      | h :: t => (d :: h) :: t

/-- Python `s.startswith(p)` on character lists. -/
def startsWithChars : List Char → List Char → Bool
  | [], _ => true
  | _ :: _, [] => false
  | p :: ps, c :: cs => p = c && startsWithChars ps cs

/-- Python `x.startswith(p)` for strings. -/
def pyStartsWith (p x : String) : Bool := startsWithChars p.data x.data

/-- Python `x.split('_')[1]` as used in `startFactory` to extract the
engine name from a `database_*` or `output_*` section name.  Sections
reaching this expression start with the prefix, so index 1 exists. -/
def engineOf (x : String) : String :=
  String.mk (((splitOnChar '_' x.data).drop 1).headD [])

/-- One plugin-discovery loop of `startFactory` (the `database_` and the
`output_` loop have the same shape): for each configuration section whose
name starts with `pre`, resolve and instantiate the engine named by the
part of the section name between the first and second underscore —
modelled by the oracle `load`, where `none` means the import or the
constructor raised — and on success append the sink and log `okMsg +
engine`, on failure log `failMsg + engine` and continue with the remaining
sections.  Returns the registered sinks and the log lines, in discovery
order. -/
def loadPlugins (load : String → Option Sink) (pre okMsg failMsg : String) :
    List String → List Sink × List String
  | [] => ([], [])
  | x :: rest =>
    if pyStartsWith pre x then
      match load (engineOf x) with
      | some s =>
        let r := loadPlugins load pre okMsg failMsg rest
        (s :: r.fst, (okMsg ++ engineOf x) :: r.snd)
      | none =>
        let r := loadPlugins load pre okMsg failMsg rest
        (r.fst, (failMsg ++ engineOf x) :: r.snd)
    else loadPlugins load pre okMsg failMsg rest

/-- Outcome of `startFactory`: the factory state afterwards, whether key
loading raised (a fatal startup error: the method aborts before plugin
discovery and the parent `startFactory` never runs), and the log lines. -/
structure StartResult where
  state : FactoryState
  fatal : Bool
  logs : List String
deriving DecidableEq

/-- `CowrieSSHFactory.startFactory`.  `keyLoad` models the
`getRSAKeys`/`getDSAKeys`/`Key.fromString` sequence: `none` means one of
them raised (after `self.sessions` and `self.starttime` were already
assigned), `some (rpub, rpriv, dpub, dpriv)` gives the four key objects.
`loadDblog`/`loadOutput` are the import-and-instantiate oracles for the
two discovery loops; `now` is `time.time()`. -/
def startFactory (keyLoad : Option (Nat × Nat × Nat × Nat))
    (loadDblog loadOutput : String → Option Sink) (now : Nat)
    (st : FactoryState) : StartResult :=
  let st1 := { st with sessions := [], starttime := some now }
  match keyLoad with
  | none => { state := st1, fatal := true, logs := [] }
  | some k =>
    let st2 :=
      { st1 with
        publicKeys := [("ssh-rsa", k.fst), ("ssh-dss", k.snd.snd.fst)],
        privateKeys := [("ssh-rsa", k.snd.fst), ("ssh-dss", k.snd.snd.snd)] }
    let rdb :=
      loadPlugins loadDblog "database_" "Loaded dblog engine: "
        "Failed to load dblog engine: " st.sections
    let rout :=
      loadPlugins loadOutput "output_" "Loaded output engine: "
        "Failed to load output engine: " st.sections
    { state :=
        { st2 with
          dbloggers := rdb.fst, output_plugins := rout.fst, started := true },
      fatal := false,
      logs := rdb.snd ++ rout.snd }

/-- A factory as constructed by `__init__`: the class-level attribute
values (`sessions = {}`, everything else `None`, modelled as empty), with
an empty configuration. -/
def stInit : FactoryState :=
  { cfgVersionString := none, sections := [], sessions := [],
    starttime := none, publicKeys := [], privateKeys := [], dbloggers := [],
    output_plugins := [], primes := [], started := false }

/-- A started factory holding the two host keys loaded by `startFactory`. -/
def stFresh : FactoryState :=
  { stInit with privateKeys := [("ssh-rsa", 1), ("ssh-dss", 2)],
                publicKeys := [("ssh-rsa", 11), ("ssh-dss", 12)],
                started := true }

/-- A factory state whose private-key mapping holds an algorithm other than
the two that `startFactory` loads. -/
def stOdd : FactoryState :=
  { stInit with privateKeys := [("ssh-ed25519", 7)], started := true }

/-- A non-empty primes table as returned by a successful moduli parse. -/
def modTable : PrimesTable := [(2048, [(2, 7)])]

/-- A started factory whose `primes` field already holds a non-empty table
from an earlier successful probe. -/
def stPrimed : FactoryState := { stFresh with primes := modTable }

/-- A freshly constructed transport with library-default field values,
including both group-exchange methods in its default key-exchange list. -/
def t0Lib : Transport :=
  { ourVersionString := "SSH-2.0-lib",
    supportedPublicKeys := ["ssh-rsa", "ssh-dss"],
    supportedKeyExchanges :=
      [gexSha256, gexSha1, "diffie-hellman-group14-sha1"],
    supportedCiphers := ["aes256-cbc"], supportedMACs := ["hmac-sha1"],
    supportedCompressions := ["none"], factoryAttached := false }

/-- A transport whose library-default key-exchange list repeats a
group-exchange name. -/
def t0Dup : Transport := { t0Lib with supportedKeyExchanges := [gexSha1, gexSha1] }

/-- A filesystem where the first probe location holds a malformed moduli
file (`parseModuliFile` raises a non-IOError exception there) and the
second holds a parseable one. -/
def fsParseErrorThenOk : String → ModuliOutcome :=
  fun path =>
    if path = "/etc/ssh/moduli" then ModuliOutcome.otherError
    else ModuliOutcome.ok modTable

/-- A configuration with three `output_*` sections. -/
def stC6 : FactoryState :=
  { stInit with sections := ["output_jsonlog", "output_bad", "output_mysql"] }

/-- A plugin loader that fails exactly for the engine named `bad`. -/
def loadBadOnly : String → Option Sink :=
  fun e => if e = "bad" then none else some ⟨9, false, false⟩

/-- The factory state reached by running `startFactory` (successful key
load, no plugin sections) on a fresh factory. -/
def stStartedW : FactoryState :=
  (startFactory (some (1, 2, 3, 4)) (fun _ => none) (fun _ => none) 100
    stInit).state

/-- When no sink in the list raises, the call loop invokes every sink
exactly once, in list order, and no exception escapes. -/
theorem callLoop_of_no_raise (raises : Sink → Bool) (l : List Sink)
    (h : ∀ s ∈ l, raises s = false) :
    callLoop raises l = (l.map Sink.sid, false) := by
  induction l with
  | nil => rfl
  | cons s rest ih =>
      have hs : raises s = false := h s (List.mem_cons_self s rest)
      have hr : ∀ x ∈ rest, raises x = false :=
        fun x hx => h x (List.mem_cons_of_mem s hx)
      simp [callLoop, hs, ih hr]

/-- C1 (counterexample): with a dblogger whose dispatch raises registered
before an output sink, `logDispatch` invokes only the raising sink: the
exception escapes and the second registered sink is never invoked, so one
sink raising does prevent delivery of the event to the remaining sinks. -/
theorem c1_sink_raise_blocks_delivery :
    logDispatch [⟨0, true, false⟩] [⟨1, false, false⟩] = ([0], true) ∧
      1 ∉ (logDispatch [⟨0, true, false⟩] [⟨1, false, false⟩]).fst := by
  constructor
  · rfl
  · decide

/-- C1 (amended): when no registered sink's `logDispatch` raises, the event
is delivered to each of the K registered sinks exactly once, in registration
order — all dbloggers first, then all output plugins, each in discovery
order — and no exception escapes.  (There is no per-sink isolation: a
raising sink aborts delivery to every later sink, see the counterexample.) -/
theorem c1_dispatch_each_sink_once_in_order
    (dbloggers output_plugins : List Sink)
    (h : ∀ s ∈ dbloggers ++ output_plugins, s.dispatchRaises = false) :
    logDispatch dbloggers output_plugins =
      ((dbloggers ++ output_plugins).map Sink.sid, false) := by
  have hdb : ∀ s ∈ dbloggers, s.dispatchRaises = false :=
    fun s hs => h s (List.mem_append_left _ hs)
  have hout : ∀ s ∈ output_plugins, s.dispatchRaises = false :=
    fun s hs => h s (List.mem_append_right _ hs)
  simp [logDispatch,
    callLoop_of_no_raise (fun s => s.dispatchRaises) dbloggers hdb,
    callLoop_of_no_raise (fun s => s.dispatchRaises) output_plugins hout]

/-- C1 (witness): a concrete dispatch over one dblogger and two output
plugins, none of which raises, reaches each sink once in order. -/
theorem c1_dispatch_each_sink_once_in_order_witness :
    logDispatch [⟨0, false, false⟩] [⟨1, false, false⟩, ⟨2, false, false⟩] =
      ([0, 1, 2], false) :=
  c1_dispatch_each_sink_once_in_order
    [⟨0, false, false⟩] [⟨1, false, false⟩, ⟨2, false, false⟩] (by decide)

/-- C7 (counterexample): with two registered output sinks where the first
sink's `stop()` raises, `stopFactory` invokes `stop()` only on the first:
the exception escapes the loop and `stop()` is never invoked on the second
sink, so one sink's failing stop does prevent stopping the remaining sinks. -/
theorem c7_stop_raise_blocks_remaining_stops :
    stopFactory [⟨0, false, true⟩, ⟨1, false, false⟩] = ([0], true) ∧
      1 ∉ (stopFactory [⟨0, false, true⟩, ⟨1, false, false⟩]).fst := by
  constructor
  · rfl
  · decide

/-- C7 (amended): when no registered output sink's `stop()` raises,
stopping the factory invokes `stop()` on every registered output sink
exactly once, in registration order.  (Stop outcomes are not independent:
a raising `stop()` aborts the loop and later sinks are not stopped, see the
counterexample.) -/
theorem c7_stop_each_sink_once_in_order (output_plugins : List Sink)
    (h : ∀ s ∈ output_plugins, s.stopRaises = false) :
    stopFactory output_plugins = (output_plugins.map Sink.sid, false) :=
  callLoop_of_no_raise (fun s => s.stopRaises) output_plugins h

/-- C7 (witness): a concrete teardown of three output sinks whose stops all
succeed invokes each stop once in registration order. -/
theorem c7_stop_each_sink_once_in_order_witness :
    stopFactory [⟨4, false, false⟩, ⟨5, false, false⟩, ⟨6, false, false⟩] =
      ([4, 5, 6], false) :=
  c7_stop_each_sink_once_in_order
    [⟨4, false, false⟩, ⟨5, false, false⟩, ⟨6, false, false⟩] (by decide)

/-- Removing the first occurrence of an element that occurs at most once
removes every occurrence: `erase` agrees with `filter`. -/
theorem count_le_one_erase_eq_filter (a : String) :
    ∀ (l : List String), l.count a ≤ 1 →
      l.erase a = l.filter (fun x => !(x == a)) := by
  intro l
  induction l with
  | nil => intro _; rfl
  | cons b l ih =>
    intro h
    rw [List.count_cons] at h
    by_cases hba : b = a
    · subst hba
      simp only [beq_self_eq_true, if_true] at h
      have h0 : l.count b = 0 := by omega
      have hnm : b ∉ l := List.count_eq_zero.mp h0
      have hfl : l.filter (fun x => !(x == b)) = l :=
        List.filter_eq_self.mpr (fun x hx => by
          have hxy : x ≠ b := fun e => hnm (e ▸ hx)
          simp [hxy])
      simp [List.erase_cons_head, List.filter, hfl]
    · have hba' : (b == a) = false := by
        simp [beq_eq_false_iff_ne, hba]
      rw [hba'] at h
      simp only [Bool.false_eq_true, if_false] at h
      rw [List.erase_cons_tail]
      · simp [List.filter, hba', ih (by omega)]
      · simp [hba']

/-- Characterization of the pruning block when each group-exchange name
occurs at most once in the incoming list: the result is the filter the
spec describes, and one log line is emitted per name present. -/
theorem pruneKex_of_count_le_one (l : List String)
    (h1 : l.count gexSha1 ≤ 1) (h2 : l.count gexSha256 ≤ 1) :
    pruneKex l =
      (specResolvedKex l,
        (if gexSha1 ∈ l then
            ["No moduli, no diffie-hellman-group-exchange-sha1"] else []) ++
          (if gexSha256 ∈ l then
            ["No moduli, no diffie-hellman-group-exchange-sha256"] else [])) := by
  have hne : gexSha256 ≠ gexSha1 := by decide
  have e1 : l.erase gexSha1 = l.filter (fun x => !(x == gexSha1)) :=
    count_le_one_erase_eq_filter gexSha1 l h1
  have hc : (l.filter (fun x => !(x == gexSha1))).count gexSha256 ≤ 1 := by
    rw [List.count_filter (by decide)]
    exact h2
  have e2 : (l.erase gexSha1).erase gexSha256 = specResolvedKex l := by
    rw [e1, count_le_one_erase_eq_filter gexSha256 _ hc, List.filter_filter]
    have hpt : (fun a => (!(a == gexSha256)) && (!(a == gexSha1)))
        = (fun e => !(e == gexSha1 || e == gexSha256)) := by
      funext x
      cases hx1 : x == gexSha1 <;> cases hx2 : x == gexSha256 <;>
        simp [hx1, hx2]
    rw [hpt]
    rfl
  have hmem : (gexSha256 ∈ l.erase gexSha1) ↔ (gexSha256 ∈ l) :=
    List.mem_erase_of_ne hne
  have hnotin : gexSha256 ∉ specResolvedKex l := by
    intro hm
    have := (List.mem_filter.mp hm).2
    simp at this
  by_cases m1 : gexSha1 ∈ l <;> by_cases m2 : gexSha256 ∈ l
  · simp [pruneKex, m1, m2, hmem, e2]
  · have e3 : l.erase gexSha1 = specResolvedKex l := by
      rw [← e2, List.erase_of_not_mem (fun hm => m2 (hmem.mp hm))]
    simp [pruneKex, m1, m2, hmem, e3, hnotin]
  · have e5 : l.erase gexSha256 = specResolvedKex l := by
      rw [← e2, List.erase_of_not_mem m1]
    simp [pruneKex, m1, m2, e5]
  · have e6 : l = specResolvedKex l := by
      rw [← e2, List.erase_of_not_mem m1,
        List.erase_of_not_mem m2]
    simp [pruneKex, m1, m2, ← e6]

/-- C3 (counterexample): with no moduli available and a library-default
key-exchange list repeating `diffie-hellman-group-exchange-sha1`, the
handler returned by `buildProtocol` still contains that entry (Python
`list.remove` deletes only the first occurrence), whereas the claimed
resolved list — the default with exactly the two group-exchange entries
removed — would exclude it. -/
theorem c3_duplicate_gex_entry_survives :
    ((buildProtocol (fun _ => ModuliOutcome.ioError) stFresh t0Dup
          "5.5.5.5").result.map Transport.supportedKeyExchanges)
        = some [gexSha1] ∧
      specResolvedKex t0Dup.supportedKeyExchanges = [] ∧
      ([gexSha1] : List String) ≠ [] := by
  refine ⟨by decide, by decide, by decide⟩

/-- C3 (amended): for every default key-exchange list in which each of the
two group-exchange names occurs at most once (in particular every
duplicate-free default list), when the factory holds no primes and no
probe location yields parameters, the handler's resolved key-exchange list
equals the default list with exactly
`diffie-hellman-group-exchange-sha1` and
`diffie-hellman-group-exchange-sha256` removed, every other entry kept
unchanged in order, each removal logged once, and an entry absent from the
default list skipped without error. -/
theorem c3_no_moduli_prunes_exactly_gex (st : FactoryState)
    (fs : String → ModuliOutcome) (t0 : Transport) (addr : String)
    (hp : st.primes = [])
    (h1 : fs "/etc/ssh/moduli" = ModuliOutcome.ioError)
    (h2 : fs "/private/etc/moduli" = ModuliOutcome.ioError)
    (hc1 : t0.supportedKeyExchanges.count gexSha1 ≤ 1)
    (hc256 : t0.supportedKeyExchanges.count gexSha256 ≤ 1) :
    ((buildProtocol fs st t0 addr).result.map Transport.supportedKeyExchanges
        = some (specResolvedKex t0.supportedKeyExchanges)) ∧
      (buildProtocol fs st t0 addr).logs =
        (if gexSha1 ∈ t0.supportedKeyExchanges then
            ["No moduli, no diffie-hellman-group-exchange-sha1"] else []) ++
          (if gexSha256 ∈ t0.supportedKeyExchanges then
            ["No moduli, no diffie-hellman-group-exchange-sha256"] else []) := by
  have hpr := pruneKex_of_count_le_one t0.supportedKeyExchanges hc1 hc256
  simp [buildProtocol, modulis, h1, h2, probeLoop, hp, hpr]

/-- C3 (witness): a concrete no-moduli build on the library default list
containing both group-exchange names once each. -/
theorem c3_no_moduli_prunes_exactly_gex_witness :
    ((buildProtocol (fun _ => ModuliOutcome.ioError) stFresh t0Lib
          "1.1.1.1").result.map Transport.supportedKeyExchanges
        = some (specResolvedKex t0Lib.supportedKeyExchanges)) ∧
      (buildProtocol (fun _ => ModuliOutcome.ioError) stFresh t0Lib
          "1.1.1.1").logs =
        (if gexSha1 ∈ t0Lib.supportedKeyExchanges then
            ["No moduli, no diffie-hellman-group-exchange-sha1"] else []) ++
          (if gexSha256 ∈ t0Lib.supportedKeyExchanges then
            ["No moduli, no diffie-hellman-group-exchange-sha256"] else []) :=
  c3_no_moduli_prunes_exactly_gex stFresh (fun _ => ModuliOutcome.ioError)
    t0Lib "1.1.1.1" rfl rfl rfl (by decide) (by decide)

/-- C2 (counterexample): with a malformed moduli file at the first probe
location (a parse failure raising a non-IOError exception, which the loop's
`except IOError` does not catch) and a parseable file at the second,
`buildProtocol` propagates the exception and returns no handler at all: a
parse failure is fatal rather than advancing the probe, and the parseable
file at the other probe path does not lead to the group-exchange entries
being retained. -/
theorem c2_parse_failure_is_fatal :
    (buildProtocol fsParseErrorThenOk stFresh t0Lib "6.6.6.6").result = none ∧
      fsParseErrorThenOk "/private/etc/moduli" = ModuliOutcome.ok modTable := by
  constructor
  · rfl
  · decide

/-- C2 (amended): probe locations are tried in their fixed order and an
IOError (unreadable/missing file) is non-fatal and advances the probe; the
first location whose read does not raise IOError ends the probe, and when
its parse succeeds it supplies the Diffie-Hellman parameters (stored in the
factory's `primes`).  Whenever the parse succeeding at a probe path yields
a non-empty table — either at the first path, or at the second with an
IOError at the first — the handler's key-exchange list keeps the library
default unchanged, so the group-exchange entries are retained.  (A parse
failure raising a non-IOError exception is fatal, and a parseable file
yielding an empty table still prunes: see the counterexample and C9.) -/
theorem c2_first_parse_success_retains_gex (st : FactoryState)
    (fs : String → ModuliOutcome) (t0 : Transport) (addr : String)
    (p : PrimesTable) (hne : p ≠ [])
    (h : fs "/etc/ssh/moduli" = ModuliOutcome.ok p ∨
      (fs "/etc/ssh/moduli" = ModuliOutcome.ioError ∧
        fs "/private/etc/moduli" = ModuliOutcome.ok p)) :
    ((buildProtocol fs st t0 addr).result.map Transport.supportedKeyExchanges
        = some t0.supportedKeyExchanges) ∧
      (buildProtocol fs st t0 addr).state.primes = p := by
  have hemp : p.isEmpty = false := by
    cases p with
    | nil => exact absurd rfl hne
    | cons a l => rfl
  rcases h with h1 | ⟨h1, h2⟩
  · simp [buildProtocol, modulis, h1, probeLoop, hemp]
  · simp [buildProtocol, modulis, h1, h2, probeLoop, hemp]

/-- C2 (witness): a parseable, non-empty moduli file at the first probe
location leaves the key-exchange list untouched and stores the parsed
table in the factory. -/
theorem c2_first_parse_success_retains_gex_witness :
    ((buildProtocol (fun _ => ModuliOutcome.ok modTable) stFresh t0Lib
          "3.3.3.3").result.map Transport.supportedKeyExchanges
        = some t0Lib.supportedKeyExchanges) ∧
      (buildProtocol (fun _ => ModuliOutcome.ok modTable) stFresh t0Lib
          "3.3.3.3").state.primes = modTable :=
  c2_first_parse_success_retains_gex stFresh (fun _ => ModuliOutcome.ok modTable)
    t0Lib "3.3.3.3" modTable (by decide) (Or.inl rfl)

/-- C4 (confirmed): whenever `buildProtocol` returns a handler, that
handler's cipher list is the literal nine-entry sequence, its MAC list is
`[hmac-md5, hmac-sha1]` and its compression list is
`[zlib@openssh.com, zlib, none]`, for every peer address, every factory
state and every set of library defaults on the fresh transport. -/
theorem c4_fixed_algorithm_lists (fs : String → ModuliOutcome)
    (st : FactoryState) (t0 : Transport) (addr : String)
    (h : (buildProtocol fs st t0 addr).result.isSome = true) :
    (buildProtocol fs st t0 addr).result.map Transport.supportedCiphers
        = some fixedCiphers ∧
      (buildProtocol fs st t0 addr).result.map Transport.supportedMACs
        = some fixedMACs ∧
      (buildProtocol fs st t0 addr).result.map Transport.supportedCompressions
        = some fixedCompressions := by
  cases hpl : probeLoop (modulis.map fs) st.primes with
  | none => simp [buildProtocol, hpl] at h
  | some p => simp [buildProtocol, hpl]

/-- C4 (witness): a concrete build with no moduli available returns a
handler carrying exactly the three literal algorithm lists. -/
theorem c4_fixed_algorithm_lists_witness :
    (buildProtocol (fun _ => ModuliOutcome.ioError) stFresh t0Lib
          "2.2.2.2").result.map Transport.supportedCiphers
        = some fixedCiphers ∧
      (buildProtocol (fun _ => ModuliOutcome.ioError) stFresh t0Lib
          "2.2.2.2").result.map Transport.supportedMACs = some fixedMACs ∧
      (buildProtocol (fun _ => ModuliOutcome.ioError) stFresh t0Lib
          "2.2.2.2").result.map Transport.supportedCompressions
        = some fixedCompressions :=
  c4_fixed_algorithm_lists (fun _ => ModuliOutcome.ioError) stFresh t0Lib
    "2.2.2.2" (by decide)

/-- C8 (counterexample): calling `buildProtocol` on a started factory while
a parseable moduli file is present mutates the factory: `self.primes` is
assigned inside the probe loop, so the state after the call differs from
the state before it. -/
theorem c8_buildProtocol_mutates_primes :
    (buildProtocol (fun _ => ModuliOutcome.ok modTable) stStartedW t0Lib
        "7.7.7.7").state ≠ stStartedW ∧
      stStartedW.started = true := by
  constructor
  · decide
  · decide

/-- C8 (amended): `buildProtocol` mutates no factory field other than
`primes`: the state after the call equals the state before with only the
`primes` field replaced, and `primes` itself is replaced exactly by what
the probe loop produces (it is left unchanged when every location raises
IOError or when an uncaught exception aborts the call before any
successful parse). -/
theorem c8_frame_only_primes (fs : String → ModuliOutcome)
    (st : FactoryState) (t0 : Transport) (addr : String) :
    (buildProtocol fs st t0 addr).state =
        { st with primes := (buildProtocol fs st t0 addr).state.primes } ∧
      (buildProtocol fs st t0 addr).state.primes =
        (probeLoop (modulis.map fs) st.primes).getD st.primes := by
  cases hpl : probeLoop (modulis.map fs) st.primes with
  | none => simp [buildProtocol, hpl]
  | some p => simp [buildProtocol, hpl]

/-- C9 (counterexample): a factory whose `primes` field is already
non-empty from an earlier successful probe prunes the group-exchange
entries again when a later call parses a moduli file that yields an empty
table: the empty parse overwrites `primes` with a falsy value and the
pruning branch runs, so the key-exchange list is not "never pruned again
for the lifetime of the factory". -/
theorem c9_empty_reparse_prunes_again :
    stPrimed.primes ≠ [] ∧
      ((buildProtocol (fun _ => ModuliOutcome.ok []) stPrimed t0Lib
            "8.8.8.8").result.map Transport.supportedKeyExchanges
          = some ["diffie-hellman-group14-sha1"]) ∧
      some t0Lib.supportedKeyExchanges ≠
        some (["diffie-hellman-group14-sha1"] : List String) := by
  refine ⟨by decide, by decide, by decide⟩

/-- C9 (amended): once the factory's `primes` field is non-empty from an
earlier successful parse, a subsequent `buildProtocol` call whose probe
fails with IOError at every location (e.g. the files have been removed)
leaves `primes` unchanged and returns a handler whose key-exchange list is
the library default unchanged — the group-exchange entries are retained.
(Pruning can recur only if a later probe successfully parses a file
yielding an empty table, see the counterexample.) -/
theorem c9_stale_primes_retain_gex (st : FactoryState)
    (fs : String → ModuliOutcome) (t0 : Transport) (addr : String)
    (hne : st.primes ≠ [])
    (h1 : fs "/etc/ssh/moduli" = ModuliOutcome.ioError)
    (h2 : fs "/private/etc/moduli" = ModuliOutcome.ioError) :
    ((buildProtocol fs st t0 addr).result.map Transport.supportedKeyExchanges
        = some t0.supportedKeyExchanges) ∧
      (buildProtocol fs st t0 addr).state.primes = st.primes := by
  have hemp : st.primes.isEmpty = false := by
    cases hp : st.primes with
    | nil => exact absurd hp hne
    | cons a l => rfl
  simp [buildProtocol, modulis, h1, h2, probeLoop, hemp]

/-- C9 (witness): a factory primed by an earlier parse, probing removed
files, still offers the full library key-exchange list. -/
theorem c9_stale_primes_retain_gex_witness :
    ((buildProtocol (fun _ => ModuliOutcome.ioError) stPrimed t0Lib
          "4.4.4.4").result.map Transport.supportedKeyExchanges
        = some t0Lib.supportedKeyExchanges) ∧
      (buildProtocol (fun _ => ModuliOutcome.ioError) stPrimed t0Lib
          "4.4.4.4").state.primes = stPrimed.primes :=
  c9_stale_primes_retain_gex stPrimed (fun _ => ModuliOutcome.ioError) t0Lib
    "4.4.4.4" (by decide) rfl rfl

/-- C5 (counterexample): the handler's public-key algorithm list does not
reflect the factory's private-key mapping: on a factory state whose
mapping holds only `ssh-ed25519`, the returned handler still offers
`[ssh-rsa, ssh-dss]` — the final assignment in `buildProtocol` is the
hard-coded literal, overwriting the earlier assignment from
`self.privateKeys.keys()`. -/
theorem c5_publicKeys_list_is_hardcoded :
    ((buildProtocol (fun _ => ModuliOutcome.ioError) stOdd t0Lib
          "9.9.9.9").result.map Transport.supportedPublicKeys)
        = some ["ssh-rsa", "ssh-dss"] ∧
      stOdd.privateKeys.map Prod.fst = ["ssh-ed25519"] ∧
      (["ssh-rsa", "ssh-dss"] : List String) ≠ ["ssh-ed25519"] := by
  refine ⟨by decide, by decide, by decide⟩

/-- C5 (amended): every handler built from a factory that was successfully
started carries the public-key list `[ssh-rsa, ssh-dss]`, which coincides
with the keys of the loaded private-key mapping — because `startFactory`
always loads exactly those two algorithms — but it is assigned as a fixed
literal that overwrites the earlier store-derived assignment and does not
track the store on other states (see the counterexample). -/
theorem c5_publicKeys_of_started_factory (k : Nat × Nat × Nat × Nat)
    (loadDblog loadOutput : String → Option Sink) (now : Nat)
    (st0 : FactoryState) (fs : String → ModuliOutcome) (t0 : Transport)
    (addr : String)
    (h : (buildProtocol fs
        (startFactory (some k) loadDblog loadOutput now st0).state t0
        addr).result.isSome = true) :
    ((buildProtocol fs
          (startFactory (some k) loadDblog loadOutput now st0).state t0
          addr).result.map Transport.supportedPublicKeys
        = some ((startFactory (some k) loadDblog loadOutput now
            st0).state.privateKeys.map Prod.fst)) ∧
      ((buildProtocol fs
          (startFactory (some k) loadDblog loadOutput now st0).state t0
          addr).result.map Transport.supportedPublicKeys
        = some ["ssh-rsa", "ssh-dss"]) := by
  cases hpl : probeLoop (modulis.map fs) st0.primes with
  | none => simp [buildProtocol, startFactory, hpl] at h
  | some p => simp [buildProtocol, startFactory, hpl]

/-- C5 (witness): a concrete started factory and build. -/
theorem c5_publicKeys_of_started_factory_witness :
    ((buildProtocol (fun _ => ModuliOutcome.ioError)
          (startFactory (some (1, 2, 3, 4)) (fun _ => none) (fun _ => none)
            100 stInit).state t0Lib
          "9.9.9.8").result.map Transport.supportedPublicKeys
        = some ((startFactory (some (1, 2, 3, 4)) (fun _ => none)
            (fun _ => none) 100 stInit).state.privateKeys.map Prod.fst)) ∧
      ((buildProtocol (fun _ => ModuliOutcome.ioError)
          (startFactory (some (1, 2, 3, 4)) (fun _ => none) (fun _ => none)
            100 stInit).state t0Lib
          "9.9.9.8").result.map Transport.supportedPublicKeys
        = some ["ssh-rsa", "ssh-dss"]) :=
  c5_publicKeys_of_started_factory (1, 2, 3, 4) (fun _ => none)
    (fun _ => none) 100 stInit (fun _ => ModuliOutcome.ioError) t0Lib
    "9.9.9.8" (by decide)

/-- The number of sinks a discovery loop registers equals the number of
matching sections whose engine loads successfully. -/
theorem loadPlugins_length (load : String → Option Sink)
    (pre okMsg failMsg : String) :
    ∀ xs : List String,
      (loadPlugins load pre okMsg failMsg xs).fst.length =
        ((xs.filter (fun x => pyStartsWith pre x)).filter
          (fun x => (load (engineOf x)).isSome)).length := by
  intro xs
  induction xs with
  | nil => rfl
  | cons x rest ih =>
    cases hs : pyStartsWith pre x with
    | false => simp [loadPlugins, hs, ih]
    | true =>
      cases hl : load (engineOf x) with
      | none => simp [loadPlugins, hs, hl, ih]
      | some s => simp [loadPlugins, hs, hl, ih]

/-- Every matching section whose engine fails to load gets a failure log
line, and discovery continues past it. -/
theorem loadPlugins_logs_failure (load : String → Option Sink)
    (pre okMsg failMsg : String) :
    ∀ (xs : List String) (x : String), x ∈ xs →
      pyStartsWith pre x = true → load (engineOf x) = none →
      (failMsg ++ engineOf x) ∈ (loadPlugins load pre okMsg failMsg xs).snd := by
  intro xs
  induction xs with
  | nil => intro x hx; cases hx
  | cons y rest ih =>
    intro x hx hpre hload
    rcases List.mem_cons.mp hx with rfl | hx2
    · simp [loadPlugins, hpre, hload]
    · have hmem := ih x hx2 hpre hload
      cases hs : pyStartsWith pre y with
      | false => simpa [loadPlugins, hs] using hmem
      | true =>
        cases hl : load (engineOf y) with
        | none =>
          simp only [loadPlugins, hs, hl, if_true]
          exact List.mem_cons_of_mem _ hmem
        | some s =>
          simp only [loadPlugins, hs, hl, if_true]
          exact List.mem_cons_of_mem _ hmem

/-- Splitting a list by a Boolean predicate partitions its length. -/
theorem length_filter_split (p : String → Bool) :
    ∀ l : List String,
      (l.filter p).length + (l.filter (fun x => !(p x))).length = l.length := by
  intro l
  induction l with
  | nil => rfl
  | cons a l ih => cases hp : p a <;> simp [hp] <;> omega

/-- C6 (confirmed): for every configuration in which exactly one of the N
`output_*` sections has an engine that fails to resolve or instantiate,
`startFactory` (with the host keys loading successfully) registers exactly
N−1 output sinks, logs the failure, completes discovery of the remaining
sections, and still reaches the Started state. -/
theorem c6_one_failed_engine_registers_rest (k : Nat × Nat × Nat × Nat)
    (loadDblog loadOutput : String → Option Sink) (now : Nat)
    (st : FactoryState)
    (hone : ((st.sections.filter (fun x => pyStartsWith "output_" x)).filter
        (fun x => (loadOutput (engineOf x)).isNone)).length = 1) :
    (startFactory (some k) loadDblog loadOutput now
          st).state.output_plugins.length + 1 =
        (st.sections.filter (fun x => pyStartsWith "output_" x)).length ∧
      (startFactory (some k) loadDblog loadOutput now st).fatal = false ∧
      (startFactory (some k) loadDblog loadOutput now st).state.started
        = true ∧
      ∀ x, x ∈ st.sections → pyStartsWith "output_" x = true →
        loadOutput (engineOf x) = none →
        ("Failed to load output engine: " ++ engineOf x) ∈
          (startFactory (some k) loadDblog loadOutput now st).logs := by
  refine ⟨?_, rfl, rfl, ?_⟩
  · have hlen := loadPlugins_length loadOutput "output_"
      "Loaded output engine: " "Failed to load output engine: " st.sections
    have hsplit := length_filter_split
      (fun x => (loadOutput (engineOf x)).isSome)
      (st.sections.filter (fun x => pyStartsWith "output_" x))
    have hnone : (fun x : String => !((loadOutput (engineOf x)).isSome))
        = (fun x => (loadOutput (engineOf x)).isNone) := by
      funext x
      cases loadOutput (engineOf x) <;> rfl
    rw [hnone, hone] at hsplit
    have hout : (startFactory (some k) loadDblog loadOutput now
        st).state.output_plugins =
        (loadPlugins loadOutput "output_" "Loaded output engine: "
          "Failed to load output engine: " st.sections).fst := rfl
    rw [hout, hlen]
    omega
  · intro x hx hpre hload
    have hmem := loadPlugins_logs_failure loadOutput "output_"
      "Loaded output engine: " "Failed to load output engine: "
      st.sections x hx hpre hload
    exact List.mem_append_right _ hmem

/-- C6 (witness): three `output_*` sections where exactly the engine `bad`
fails: two sinks registered, startup Started, failure logged. -/
theorem c6_one_failed_engine_registers_rest_witness :
    (startFactory (some (1, 2, 3, 4)) (fun _ => none) loadBadOnly 100
          stC6).state.output_plugins.length + 1 =
        (stC6.sections.filter (fun x => pyStartsWith "output_" x)).length ∧
      (startFactory (some (1, 2, 3, 4)) (fun _ => none) loadBadOnly 100
          stC6).fatal = false ∧
      (startFactory (some (1, 2, 3, 4)) (fun _ => none) loadBadOnly 100
          stC6).state.started = true ∧
      ("Failed to load output engine: " ++ engineOf "output_bad") ∈
        (startFactory (some (1, 2, 3, 4)) (fun _ => none) loadBadOnly 100
          stC6).logs := by
  have h := c6_one_failed_engine_registers_rest (1, 2, 3, 4) (fun _ => none)
    loadBadOnly 100 stC6 (by decide)
  exact ⟨h.1, h.2.1, h.2.2.1, h.2.2.2 "output_bad" (by decide) (by decide)
    (by decide)⟩

/-- The splitter never returns an empty list of components. -/
theorem splitOnChar_ne_nil (c : Char) (l : List Char) :
    splitOnChar c l ≠ [] := by
  cases l with
  | nil => simp [splitOnChar]
  | cons d rest =>
    simp only [splitOnChar]
    by_cases hdc : d = c
    · simp [hdc]
    · cases hr : splitOnChar c rest with
      | nil => simp [hdc, hr]
      | cons h t => simp [hdc, hr]

/-- The first component of the split is the run of characters before the
first separator. -/
theorem headD_splitOnChar (c : Char) :
    ∀ l : List Char,
      (splitOnChar c l).headD [] = l.takeWhile (fun x => !(x == c)) := by
  intro l
  induction l with
  | nil => rfl
  | cons d rest ih =>
    by_cases hdc : d = c
    · subst hdc
      simp [splitOnChar, List.takeWhile]
    · have hne := splitOnChar_ne_nil c rest
      cases hr : splitOnChar c rest with
      | nil => exact absurd hr hne
      | cons h t =>
        rw [hr] at ih
        have hb : (d == c) = false := by
          simp [beq_eq_false_iff_ne, hdc]
        simp [splitOnChar, hdc, hr, List.takeWhile, hb]
        simpa using ih

/-- Splitting at the first separator: the part before it (separator-free)
is the first component, and the remainder is split recursively. -/
theorem splitOnChar_append (c : Char) :
    ∀ (a b : List Char), c ∉ a →
      splitOnChar c (a ++ c :: b) = a :: splitOnChar c b := by
  intro a
  induction a with
  | nil =>
    intro b _
    simp [splitOnChar]
  | cons d a ih =>
    intro b hc
    have hdc : ¬ d = c := fun e => hc (e ▸ List.mem_cons_self d a)
    have hrec := ih b (fun hm => hc (List.mem_cons_of_mem d hm))
    simp only [List.cons_append, splitOnChar, List.append_eq]
    rw [hrec]
    simp [hdc]

/-- C10 (confirmed): for every section name of the form `<head>_<rest>`
with no underscore in `<head>` (e.g. `output_...` or `database_...`), the
engine name `startFactory` resolves — `x.split('_')[1]` — is exactly the
substring between the first and the second underscore of the section name:
the part of `<rest>` before its first underscore.  In particular a section
`output_local_syslog` resolves the truncated name `local`, not
`local_syslog`. -/
theorem c10_engine_is_first_underscore_component (a b : List Char)
    (h : '_' ∉ a) :
    engineOf (String.mk (a ++ '_' :: b)) =
      String.mk (b.takeWhile (fun x => !(x == '_'))) := by
  simp only [engineOf]
  rw [splitOnChar_append '_' a b h]
  exact congrArg String.mk (headD_splitOnChar '_' b)

/-- C10 (witness): the section `output_local_syslog` resolves engine
`local`. -/
theorem c10_engine_is_first_underscore_component_witness :
    ('_' ∉ "output".data) ∧ engineOf "output_local_syslog" = "local" := by
  refine ⟨by decide, ?_⟩
  have h := c10_engine_is_first_underscore_component "output".data
    "local_syslog".data (by decide)
  exact h

end Cowrie
